import Mathlib

/-!
Verification of the auto-forwarding bot (`src/bot.py`).

The development shallowly embeds the two core functions of the program:

* `forward_to_channel(message, channel_id, retries=3)` — the per-destination
  forwarder: a `for attempt in range(retries)` loop around one relay attempt,
  with differentiated handling of `RetryAfter`, `TimedOut`, `TelegramError`
  (split into permanent and generic transient by substring match on the
  lowered error text) and any other exception.
* `forward_message(update, context)` — the batch dispatcher: it reads
  `update.channel_post`, returns early when absent, otherwise walks
  `range(0, len(TARGET_CHANNELS), 20)`, slices a batch `L[i:i+20]`, gathers
  the per-destination results with `return_exceptions=True`, counts
  `r is True` as success and everything else as failure, and sleeps one
  second between batches while `i + 20 < len(TARGET_CHANNELS)`.

The external delivery client is abstracted as a function from the attempt
index to the outcome of that relay attempt (for the forwarder), and as a
function from destination to per-task result (for the dispatcher, where a
task result may also be a propagated exception value, as produced by
`asyncio.gather(..., return_exceptions=True)`).

Side effects that the claims talk about (relay attempts, sleeps, the final
summary log line) are recorded in explicit traces.
-/

set_option autoImplicit false

/-- Embeds Python `needle` being a leading substring of `haystack`
(character lists). -/
def startsWithChars : List Char → List Char → Bool
  | [], _ => true
  | _ :: _, [] => false
  | a :: as, b :: bs => a == b && startsWithChars as bs

/-- Embeds Python `needle in haystack` on strings, as character lists. -/
def containsChars (needle : List Char) : List Char → Bool
  | [] => startsWithChars needle []
  | b :: bs => startsWithChars needle (b :: bs) || containsChars needle bs

/-- Embeds Python `str.lower()` on one character (the error texts matched in
`bot.py` are ASCII). -/
def lowerChar (c : Char) : Char :=
  if 65 ≤ c.toNat ∧ c.toNat ≤ 90 then Char.ofNat (c.toNat + 32) else c

/-- Embeds Python `str.lower()` on a string, as a character list. -/
def lowerChars (l : List Char) : List Char :=
  l.map lowerChar

/-- The fixed substrings of `bot.py` line 46 that classify a `TelegramError`
as permanent. -/
def permanentErrorMarkers : List String :=
  ["chat not found", "bot was kicked", "not a member", "have no rights"]

/-- Embeds lines 44-46 of `bot.py`: lower the error text and test whether it
contains any of the permanent markers. -/
def isPermanentError (errorText : String) : Bool :=
  permanentErrorMarkers.any (fun err => containsChars err.data (lowerChars errorText.data))

/-- Outcome of one relay attempt `message.forward(chat_id=channel_id)`, the
abstraction of the external delivery client for one destination. -/
inductive AttemptOutcome where
  | success
  | rateLimited (retryAfter : Nat)
  | timedOut
  | telegramError (msg : String)
  | unexpected (msg : String)
deriving DecidableEq

/-- Observable behaviour of one `forward_to_channel` call: the returned
boolean, the number of relay attempts actually made, and the backoff sleeps
performed, in order and in seconds. -/
structure ForwardTrace where
  result : Bool
  attempts : Nat
  sleeps : List Nat
deriving DecidableEq

/-- The body of the `for attempt in range(retries)` loop of
`forward_to_channel` (`bot.py` lines 29-57), starting at iteration
`attempt` with `remaining` iterations left. Falling out of the loop returns
`False` (line 57). Each iteration makes one relay attempt; `RetryAfter`
sleeps `retry_after + 1` (lines 35-39), `TimedOut` sleeps 2 (lines 40-42),
a permanent `TelegramError` returns `False` at once (lines 43-48), a
generic `TelegramError` sleeps 1 unless this is the final attempt
(lines 49-51), and any other exception returns `False` at once
(lines 52-54). -/
def forwardGo (behavior : Nat → AttemptOutcome) (retries : Nat) : Nat → Nat → ForwardTrace
  | _, 0 => { result := false, attempts := 0, sleeps := [] }
  | attempt, remaining + 1 =>
    match behavior attempt with
    | .success => { result := true, attempts := 1, sleeps := [] }
    | .rateLimited retryAfter =>
      let rest := forwardGo behavior retries (attempt + 1) remaining
      { result := rest.result, attempts := rest.attempts + 1,
        sleeps := (retryAfter + 1) :: rest.sleeps }
    | .timedOut =>
      let rest := forwardGo behavior retries (attempt + 1) remaining
      { result := rest.result, attempts := rest.attempts + 1, sleeps := 2 :: rest.sleeps }
    | .telegramError msg =>
      if isPermanentError msg then { result := false, attempts := 1, sleeps := [] }
      else
        let rest := forwardGo behavior retries (attempt + 1) remaining
        if attempt < retries - 1 then
          { result := rest.result, attempts := rest.attempts + 1, sleeps := 1 :: rest.sleeps }
        else
          { result := rest.result, attempts := rest.attempts + 1, sleeps := rest.sleeps }
    | .unexpected _ => { result := false, attempts := 1, sleeps := [] }

/-- Embeds `forward_to_channel(message, channel_id, retries)`: run the loop
from iteration 0 with `retries` iterations. `behavior a` is what the relay
attempt of iteration `a` would do for this destination. -/
def forward_to_channel (behavior : Nat → AttemptOutcome) (retries : Nat) : ForwardTrace :=
  forwardGo behavior retries 0 retries

/-- Result of one per-destination task as seen by
`asyncio.gather(*tasks, return_exceptions=True)`: either the boolean that
`forward_to_channel` returned, or an exception value. -/
inductive TaskResult where
  | value (b : Bool)
  | exn (msg : String)
deriving DecidableEq

/-- Embeds Python `r is True` on a gathered result. -/
def isTrueResult : TaskResult → Bool
  | .value true => true
  | _ => false

/-- `batch_size = 20` of `bot.py` line 92. -/
def BATCH_SIZE : Nat := 20

/-- Embeds Python `range(start, stop, step)` for positive `step`. -/
def pyRangeStep (start stop step : Nat) : List Nat :=
  if h : 0 < step ∧ start < stop then
    start :: pyRangeStep (start + step) stop step
  else
    []
termination_by stop - start
decreasing_by omega

/-- Embeds the slice `TARGET_CHANNELS[i:i + batch_size]` of line 95. -/
def batchAt (l : List String) (i : Nat) : List String :=
  (l.drop i).take BATCH_SIZE

/-- The batches processed by the dispatch loop of `forward_message`, in
order: the slice at each index produced by `range(0, len(l), 20)`. -/
def batchList (l : List String) : List (List String) :=
  (pyRangeStep 0 l.length BATCH_SIZE).map (batchAt l)

/-- Number of batches of the dispatch loop. -/
def numBatches (l : List String) : Nat :=
  (batchList l).length

/-- `successful += sum(1 for r in results if r is True)` for one batch
(line 103). -/
def batchSucc (outcome : String → TaskResult) (batch : List String) : Nat :=
  (batch.map outcome).countP (fun r => isTrueResult r)

/-- `failed += sum(1 for r in results if r is not True)` for one batch
(line 104). -/
def batchFail (outcome : String → TaskResult) (batch : List String) : Nat :=
  (batch.map outcome).countP (fun r => !isTrueResult r)

/-- Observable behaviour of one `forward_message` call: destinations for
which a forward task was created (in order), the two counters, the number
of inter-batch sleeps performed, and whether the final summary was
emitted. -/
structure RunTrace where
  attempted : List String
  successful : Nat
  failed : Nat
  interBatchSleeps : Nat
  summaryEmitted : Bool
deriving DecidableEq

/-- One iteration of the dispatch loop of `forward_message`
(lines 94-108) at batch start index `i`: create one task per destination of
the slice, gather, update both counters, and sleep iff
`i + batch_size < len(TARGET_CHANNELS)` (line 107). -/
def dispatchStep (l : List String) (outcome : String → TaskResult)
    (acc : RunTrace) (i : Nat) : RunTrace :=
  let batch := batchAt l i
  { attempted := acc.attempted ++ batch
    successful := acc.successful + batchSucc outcome batch
    failed := acc.failed + batchFail outcome batch
    interBatchSleeps := acc.interBatchSleeps + (if i + BATCH_SIZE < l.length then 1 else 0)
    summaryEmitted := acc.summaryEmitted }

/-- Embeds `forward_message` (lines 60-113): if `update.channel_post` is
absent, return at once (lines 63-66) with no task, no sleep and no summary;
otherwise run the dispatch loop over `range(0, len(TARGET_CHANNELS), 20)`
and emit the summary (lines 110-113). `channel_post` is abstracted to its
presence, `l` is `TARGET_CHANNELS`, and `outcome d` is the gathered result
of destination `d`'s task. -/
def forward_message (channel_post : Option Unit) (l : List String)
    (outcome : String → TaskResult) : RunTrace :=
  match channel_post with
  | none => { attempted := [], successful := 0, failed := 0,
              interBatchSleeps := 0, summaryEmitted := false }
  | some _ =>
    let final := (pyRangeStep 0 l.length BATCH_SIZE).foldl (dispatchStep l outcome)
      { attempted := [], successful := 0, failed := 0,
        interBatchSleeps := 0, summaryEmitted := false }
    { final with summaryEmitted := true }

/-- Python whitespace as stripped by `str.strip()` (ASCII range: space,
tab, newline, carriage return, vertical tab, form feed). -/
def isSpaceChar (c : Char) : Bool :=
  c.toNat == 32 || (9 ≤ c.toNat && c.toNat ≤ 13)

/-- Embeds Python `str.strip()` on a character list: drop leading and
trailing whitespace. -/
def stripChars (l : List Char) : List Char :=
  ((l.dropWhile isSpaceChar).reverse.dropWhile isSpaceChar).reverse

/-- Embeds Python `str.split(',')` on a character list: the groups between
commas, in order; the empty string splits to one empty group. -/
def splitCommas : List Char → List (List Char)
  | [] => [[]]
  | c :: cs =>
    if c == ',' then
      [] :: splitCommas cs
    else
      match splitCommas cs with
      | [] => [[c]]
      | g :: gs => (c :: g) :: gs

/-- Embeds the construction of `TARGET_CHANNELS` (`bot.py` lines 23-24):
split the environment string on commas, strip each entry, keep the
non-empty ones (`[ch.strip() for ch in ... if ch.strip()]`). -/
def parseTargetChannels (env : String) : List String :=
  ((splitCommas env.data).map (fun ch => String.mk (stripChars ch))).filter
    (fun s => s ≠ "")

/-! ### Helper lemmas: the index list of the dispatch loop -/

theorem pyRangeStep_stop (start stop step : Nat) (h : ¬ (0 < step ∧ start < stop)) :
    pyRangeStep start stop step = [] := by
  rw [pyRangeStep]
  simp [h]

theorem pyRangeStep_go (start stop step : Nat) (h1 : 0 < step) (h2 : start < stop) :
    pyRangeStep start stop step = start :: pyRangeStep (start + step) stop step := by
  rw [pyRangeStep]
  simp [h1, h2]

theorem pyRangeStep_closed : ∀ (d s n : Nat), n - s ≤ d →
    pyRangeStep s n 20 = (List.range ((n - s + 19) / 20)).map (fun j => s + j * 20) := by
  intro d
  induction d with
  | zero =>
    intro s n hd
    rw [pyRangeStep_stop _ _ _ (by omega)]
    have h2 : (n - s + 19) / 20 = 0 := by omega
    rw [h2]
    simp
  | succ d ih =>
    intro s n hd
    by_cases h : s < n
    · rw [pyRangeStep_go _ _ _ (by omega) h, ih (s + 20) n (by omega)]
      have h2 : (n - s + 19) / 20 = (n - (s + 20) + 19) / 20 + 1 := by omega
      rw [h2, List.range_succ_eq_map, List.map_cons, List.map_map]
      refine congrArg₂ List.cons (by omega) ?_
      refine List.map_congr_left ?_
      intro j hj
      simp only [Function.comp_apply, Nat.succ_eq_add_one]
      ring
    · rw [pyRangeStep_stop _ _ _ (by omega)]
      have h2 : (n - s + 19) / 20 = 0 := by omega
      rw [h2]
      simp

theorem pyRangeStep_zero_closed (n : Nat) :
    pyRangeStep 0 n 20 = (List.range ((n + 19) / 20)).map (fun j => j * 20) := by
  have h := pyRangeStep_closed n 0 n (by omega)
  simpa using h

theorem numBatches_eq (l : List String) : numBatches l = (l.length + 19) / 20 := by
  simp [numBatches, batchList, BATCH_SIZE, pyRangeStep_zero_closed]

theorem batchFlatten : ∀ (d s : Nat) (l : List String), l.length - s ≤ d →
    ((pyRangeStep s l.length 20).map (batchAt l)).flatten = l.drop s := by
  intro d
  induction d with
  | zero =>
    intro s l hd
    rw [pyRangeStep_stop _ _ _ (by omega), List.drop_eq_nil_of_le (by omega)]
    simp
  | succ d ih =>
    intro s l hd
    by_cases h : s < l.length
    · rw [pyRangeStep_go _ _ _ (by omega) h]
      simp only [List.map_cons, List.flatten_cons]
      rw [ih (s + 20) l (by omega)]
      have h2 : l.drop (s + 20) = (l.drop s).drop 20 := (List.drop_drop 20 s l).symm
      rw [h2]
      simp only [batchAt, BATCH_SIZE]
      exact List.take_append_drop 20 (l.drop s)
    · rw [pyRangeStep_stop _ _ _ (by omega), List.drop_eq_nil_of_le (by omega)]
      simp

theorem batchFlatten_zero (l : List String) : (batchList l).flatten = l := by
  have h := batchFlatten l.length 0 l (by omega)
  simpa [batchList, BATCH_SIZE] using h

theorem pyRangeStep_sleepCount : ∀ (d s n B : Nat), 0 < B → n - s ≤ d →
    (pyRangeStep s n B).countP (fun i => decide (i + B < n)) =
      (pyRangeStep s n B).length - 1 := by
  intro d
  induction d with
  | zero =>
    intro s n B hB hd
    rw [pyRangeStep_stop _ _ _ (by omega)]
    simp
  | succ d ih =>
    intro s n B hB hd
    by_cases h : s < n
    · rw [pyRangeStep_go _ _ _ hB h, List.countP_cons]
      by_cases h2 : s + B < n
      · have hlen : 1 ≤ (pyRangeStep (s + B) n B).length := by
          rw [pyRangeStep_go (s + B) n B hB h2]
          simp
        rw [ih (s + B) n B hB (by omega)]
        simp [h2]
        omega
      · rw [pyRangeStep_stop (s + B) n B (by omega)]
        simp [h2]
    · rw [pyRangeStep_stop _ _ _ (by omega)]
      simp

/-! ### Helper lemmas: the dispatch fold of `forward_message` -/

theorem dispatch_foldl (l : List String) (outcome : String → TaskResult) :
    ∀ (idxs : List Nat) (acc : RunTrace),
      idxs.foldl (dispatchStep l outcome) acc =
        { attempted := acc.attempted ++ (idxs.map (batchAt l)).flatten
          successful := acc.successful + ((idxs.map (batchAt l)).map (batchSucc outcome)).sum
          failed := acc.failed + ((idxs.map (batchAt l)).map (batchFail outcome)).sum
          interBatchSleeps := acc.interBatchSleeps +
            idxs.countP (fun i => decide (i + BATCH_SIZE < l.length))
          summaryEmitted := acc.summaryEmitted } := by
  intro idxs
  induction idxs with
  | nil =>
    intro acc
    simp
  | cons i idxs ih =>
    intro acc
    rw [List.foldl_cons, ih]
    simp only [dispatchStep, List.map_cons, List.flatten_cons, List.sum_cons, List.countP_cons,
      RunTrace.mk.injEq, List.append_assoc]
    refine ⟨trivial, by omega, by omega, ?_, trivial⟩
    by_cases h : i + BATCH_SIZE < l.length
    · simp [h]
      omega
    · simp [h]

theorem sum_countP_batches (l : List String) (outcome : String → TaskResult)
    (p : TaskResult → Bool) :
    ((batchList l).map (fun b => (b.map outcome).countP p)).sum = (l.map outcome).countP p := by
  have h1 : (batchList l).map (fun b => (b.map outcome).countP p)
      = ((batchList l).map (List.map outcome)).map (List.countP p) := by
    rw [List.map_map]
    rfl
  rw [h1, ← List.countP_flatten, ← List.map_flatten, batchFlatten_zero]

theorem forward_message_some (l : List String) (outcome : String → TaskResult) :
    forward_message (some ()) l outcome =
      { attempted := l
        successful := (l.map outcome).countP (fun r => isTrueResult r)
        failed := (l.map outcome).countP (fun r => !isTrueResult r)
        interBatchSleeps := numBatches l - 1
        summaryEmitted := true } := by
  have hb : batchList l = (pyRangeStep 0 l.length BATCH_SIZE).map (batchAt l) := rfl
  simp only [forward_message, dispatch_foldl]
  simp only [RunTrace.mk.injEq]
  refine ⟨?_, ?_, ?_, ?_, trivial⟩
  · rw [List.nil_append, ← hb, batchFlatten_zero]
  · rw [Nat.zero_add, ← hb]
    exact sum_countP_batches l outcome (fun r => isTrueResult r)
  · rw [Nat.zero_add, ← hb]
    exact sum_countP_batches l outcome (fun r => !isTrueResult r)
  · rw [Nat.zero_add]
    have hc := pyRangeStep_sleepCount l.length 0 l.length BATCH_SIZE
      (by norm_num [BATCH_SIZE]) (by omega)
    rw [hc]
    simp [numBatches, batchList]

/-! ### Helper lemmas: the retry loop of `forward_to_channel` -/

theorem forwardGo_allRateLimited (behavior : Nat → AttemptOutcome) (retries : Nat)
    (ra : Nat → Nat) :
    ∀ (remaining attempt : Nat),
      (∀ a, attempt ≤ a → a < attempt + remaining → behavior a = .rateLimited (ra a)) →
      forwardGo behavior retries attempt remaining =
        { result := false, attempts := remaining,
          sleeps := (List.range remaining).map (fun j => ra (attempt + j) + 1) } := by
  intro remaining
  induction remaining with
  | zero =>
    intro attempt h
    simp [forwardGo]
  | succ remaining ih =>
    intro attempt h
    have hb : behavior attempt = .rateLimited (ra attempt) := h attempt (Nat.le_refl _) (by omega)
    have hrec := ih (attempt + 1) (fun a h1 h2 => h a (by omega) (by omega))
    simp only [forwardGo, hb, hrec]
    simp only [ForwardTrace.mk.injEq]
    refine ⟨trivial, trivial, ?_⟩
    rw [List.range_succ_eq_map, List.map_cons, List.map_map]
    refine congrArg₂ List.cons (by simp) ?_
    refine List.map_congr_left ?_
    intro j hj
    simp only [Function.comp_apply, Nat.succ_eq_add_one]
    have hj2 : attempt + 1 + j = attempt + (j + 1) := by omega
    rw [hj2]

theorem forwardGo_true_success (behavior : Nat → AttemptOutcome) (retries : Nat) :
    ∀ (remaining attempt : Nat),
      (forwardGo behavior retries attempt remaining).result = true →
      ∃ a, attempt ≤ a ∧ a < attempt + remaining ∧ behavior a = .success := by
  intro remaining
  induction remaining with
  | zero =>
    intro attempt h
    simp [forwardGo] at h
  | succ remaining ih =>
    intro attempt h
    rcases hb : behavior attempt with _ | ra | _ | msg | msg
    · exact ⟨attempt, Nat.le_refl _, by omega, hb⟩
    · simp only [forwardGo, hb] at h
      obtain ⟨a, h1, h2, h3⟩ := ih (attempt + 1) h
      exact ⟨a, by omega, by omega, h3⟩
    · simp only [forwardGo, hb] at h
      obtain ⟨a, h1, h2, h3⟩ := ih (attempt + 1) h
      exact ⟨a, by omega, by omega, h3⟩
    · simp only [forwardGo, hb] at h
      by_cases hp : isPermanentError msg = true
      · simp [hp] at h
      · simp only [Bool.not_eq_true] at hp
        simp only [hp] at h
        by_cases hlt : attempt < retries - 1
        · simp only [if_pos hlt] at h
          obtain ⟨a, h1, h2, h3⟩ := ih (attempt + 1) h
          exact ⟨a, by omega, by omega, h3⟩
        · simp only [if_neg hlt] at h
          obtain ⟨a, h1, h2, h3⟩ := ih (attempt + 1) h
          exact ⟨a, by omega, by omega, h3⟩
    · simp only [forwardGo, hb] at h
      simp at h

theorem forwardGo_allTransient (behavior : Nat → AttemptOutcome) (retries : Nat) :
    ∀ (remaining attempt : Nat),
      (∀ a, attempt ≤ a → a < attempt + remaining →
        behavior a = .timedOut ∨
          ∃ msg, behavior a = .telegramError msg ∧ isPermanentError msg = false) →
      (forwardGo behavior retries attempt remaining).result = false ∧
      (forwardGo behavior retries attempt remaining).attempts = remaining := by
  intro remaining
  induction remaining with
  | zero =>
    intro attempt h
    simp [forwardGo]
  | succ remaining ih =>
    intro attempt h
    have hrec := ih (attempt + 1) (fun a h1 h2 => h a (by omega) (by omega))
    rcases h attempt (Nat.le_refl _) (by omega) with hb | ⟨msg, hb, hp⟩
    · simp [forwardGo, hb, hrec.1, hrec.2]
    · by_cases hlt : attempt < retries - 1
      · simp [forwardGo, hb, hp, hlt, hrec.1, hrec.2]
      · simp [forwardGo, hb, hp, hlt, hrec.1, hrec.2]

theorem forwardGo_permanent (behavior : Nat → AttemptOutcome) (retries : Nat)
    (attempt remaining : Nat) (msg : String) (h1 : 0 < remaining)
    (h2 : behavior attempt = .telegramError msg) (h3 : isPermanentError msg = true) :
    forwardGo behavior retries attempt remaining =
      { result := false, attempts := 1, sleeps := [] } := by
  obtain ⟨r, rfl⟩ : ∃ r, remaining = r + 1 := ⟨remaining - 1, by omega⟩
  simp [forwardGo, h2, h3]

theorem forwardGo_unexpectedStop (behavior : Nat → AttemptOutcome) (retries : Nat)
    (attempt remaining : Nat) (msg : String) (h1 : 0 < remaining)
    (h2 : behavior attempt = .unexpected msg) :
    forwardGo behavior retries attempt remaining =
      { result := false, attempts := 1, sleeps := [] } := by
  obtain ⟨r, rfl⟩ : ∃ r, remaining = r + 1 := ⟨remaining - 1, by omega⟩
  simp [forwardGo, h2]

theorem countP_partition (rs : List TaskResult) :
    rs.countP (fun r => isTrueResult r) + rs.countP (fun r => !isTrueResult r) = rs.length := by
  induction rs with
  | nil => simp
  | cons r rs ih =>
    simp only [List.countP_cons, List.length_cons]
    cases hr : isTrueResult r <;> simp [hr] <;> omega

/-! ### Claim theorems -/

/-- C3 (counterexample): with the default budget of 3 attempts, three
consecutive rate-limit errors make `forward_to_channel` return `False`
after 3 attempts — rate-limited failures are not retried without bound and
do count against the `retries` budget. -/
theorem rate_limit_bounded_counterexample :
    (forward_to_channel (fun _ => AttemptOutcome.rateLimited 0) 3).result = false ∧
    (forward_to_channel (fun _ => AttemptOutcome.rateLimited 0) 3).attempts = 3 := by
  decide

/-- C3 (amended): on a RateLimited failure the forwarder sleeps
retryAfterSeconds + 1 seconds and then continues the loop, retrying only
while iterations of the same `retries` budget remain; `retries`
consecutive RateLimited errors make forward return false after exactly
`retries` relay attempts, with the mandated sleep after each of them. -/
theorem rate_limit_consumes_budget (behavior : Nat → AttemptOutcome)
    (retries : Nat) (ra : Nat → Nat)
    (h : ∀ a, a < retries → behavior a = AttemptOutcome.rateLimited (ra a)) :
    forward_to_channel behavior retries =
      { result := false, attempts := retries,
        sleeps := (List.range retries).map (fun j => ra j + 1) } := by
  have hg := forwardGo_allRateLimited behavior retries ra retries 0
    (fun a h1 h2 => h a (by omega))
  rw [forward_to_channel, hg]
  simp

theorem rate_limit_consumes_budget_witness :
    forward_to_channel (fun a => AttemptOutcome.rateLimited (a + 5)) 3 =
      { result := false, attempts := 3, sleeps := [6, 7, 8] } := by
  rw [rate_limit_consumes_budget (fun a => AttemptOutcome.rateLimited (a + 5)) 3
    (fun a => a + 5) (fun a ha => rfl)]
  decide

/-- C4: a first-attempt `TelegramError` whose lowered text contains one of
the fixed permanent markers makes forward return false after exactly one
relay attempt, with no retry and no backoff sleep, whatever the retries
budget is. -/
theorem permanent_error_immediate (behavior : Nat → AttemptOutcome)
    (retries : Nat) (msg : String) (h1 : 0 < retries)
    (h2 : behavior 0 = AttemptOutcome.telegramError msg)
    (h3 : isPermanentError msg = true) :
    forward_to_channel behavior retries =
      { result := false, attempts := 1, sleeps := [] } :=
  forwardGo_permanent behavior retries 0 retries msg h1 h2 h3

theorem permanent_error_immediate_witness :
    0 < 7 ∧ isPermanentError "Bad Request: chat not found" = true ∧
    forward_to_channel
        (fun _ => AttemptOutcome.telegramError "Bad Request: chat not found") 7 =
      { result := false, attempts := 1, sleeps := [] } :=
  ⟨by decide, by decide,
    permanent_error_immediate _ 7 "Bad Request: chat not found" (by decide) rfl (by decide)⟩

/-- C5: forward returns true only when some relay attempt within the budget
succeeds; if every attempt fails with a transient error (timeout or a
non-permanent `TelegramError`), forward returns false after exactly
`retries` relay attempts. -/
theorem transient_exhaustion (behavior : Nat → AttemptOutcome) (retries : Nat) :
    ((forward_to_channel behavior retries).result = true →
      ∃ a, a < retries ∧ behavior a = AttemptOutcome.success) ∧
    ((∀ a, a < retries →
        behavior a = AttemptOutcome.timedOut ∨
          ∃ msg, behavior a = AttemptOutcome.telegramError msg ∧
            isPermanentError msg = false) →
      (forward_to_channel behavior retries).result = false ∧
      (forward_to_channel behavior retries).attempts = retries) := by
  constructor
  · intro h
    obtain ⟨a, h1, h2, h3⟩ := forwardGo_true_success behavior retries retries 0 h
    exact ⟨a, by omega, h3⟩
  · intro h
    exact forwardGo_allTransient behavior retries retries 0 (fun a h1 h2 => h a (by omega))

theorem transient_exhaustion_witness :
    (forward_to_channel (fun _ => AttemptOutcome.timedOut) 3).result = false ∧
    (forward_to_channel (fun _ => AttemptOutcome.timedOut) 3).attempts = 3 :=
  (transient_exhaustion (fun _ => AttemptOutcome.timedOut) 3).2 (fun a ha => Or.inl rfl)

/-- C9: an unclassified unexpected error makes forward abandon at once:
on the first relay attempt, forward returns false after exactly one relay
attempt with no sleep; and whatever iteration the loop has reached, an
unexpected error there ends the loop with that single further attempt,
result false, no further retries and no sleep. -/
theorem unexpected_error_immediate (behavior : Nat → AttemptOutcome)
    (retries : Nat) (msg : String) (h1 : 0 < retries)
    (h2 : behavior 0 = AttemptOutcome.unexpected msg) :
    (forward_to_channel behavior retries =
      { result := false, attempts := 1, sleeps := [] }) ∧
    ∀ attempt remaining, 0 < remaining →
      behavior attempt = AttemptOutcome.unexpected msg →
      forwardGo behavior retries attempt remaining =
        { result := false, attempts := 1, sleeps := [] } :=
  ⟨forwardGo_unexpectedStop behavior retries 0 retries msg h1 h2,
    fun attempt remaining hr hb =>
      forwardGo_unexpectedStop behavior retries attempt remaining msg hr hb⟩

theorem unexpected_error_immediate_witness :
    0 < 5 ∧
    forward_to_channel (fun _ => AttemptOutcome.unexpected "boom") 5 =
      { result := false, attempts := 1, sleeps := [] } :=
  ⟨by decide, (unexpected_error_immediate _ 5 "boom" (by decide) rfl).1⟩

/-- C1: for every run over a destination list of length N, the run outcome
counters satisfy `successful + failed = N` and `successful ≤ N`; per batch
the two counters partition the gathered results, so every destination
yields exactly one counted terminal outcome; and the success count of a
result list is invariant under permutation, so the aggregate does not
depend on the completion order within a batch. -/
theorem run_outcome_partition (l : List String) (outcome : String → TaskResult) :
    ((forward_message (some ()) l outcome).successful
        + (forward_message (some ()) l outcome).failed = l.length) ∧
    (forward_message (some ()) l outcome).successful ≤ l.length ∧
    (∀ batch : List String,
      batchSucc outcome batch + batchFail outcome batch = batch.length) ∧
    (∀ rs1 rs2 : List TaskResult, rs1.Perm rs2 →
      rs1.countP (fun r => isTrueResult r) = rs2.countP (fun r => isTrueResult r)) := by
  have hcp := countP_partition (l.map outcome)
  rw [List.length_map] at hcp
  refine ⟨?_, ?_, ?_, ?_⟩
  · rw [forward_message_some]
    exact hcp
  · rw [forward_message_some]
    show (l.map outcome).countP (fun r => isTrueResult r) ≤ l.length
    omega
  · intro batch
    have h := countP_partition (batch.map outcome)
    rw [List.length_map] at h
    exact h
  · intro rs1 rs2 hperm
    exact hperm.countP_eq (fun r => isTrueResult r)

theorem run_outcome_partition_witness :
    ([TaskResult.value true, TaskResult.exn "boom"].Perm
        [TaskResult.exn "boom", TaskResult.value true]) ∧
    [TaskResult.value true, TaskResult.exn "boom"].countP (fun r => isTrueResult r)
      = [TaskResult.exn "boom", TaskResult.value true].countP (fun r => isTrueResult r) :=
  ⟨by decide,
    (run_outcome_partition ["a"] (fun _ => TaskResult.value true)).2.2.2 _ _ (by decide)⟩

/-- C2: with batch size 20, the dispatch loop partitions the destination
list into exactly ceil(N/20) contiguous batches in original input order:
concatenating the batches restores the list, batch i is the slice of
indices [i*20, min((i+1)*20, N)), and every batch has at most 20
elements. -/
theorem batch_partition (l : List String) :
    numBatches l = (l.length + 19) / 20 ∧
    (batchList l).flatten = l ∧
    ∀ i : Nat, ∀ h : i < (batchList l).length,
      (batchList l).get ⟨i, h⟩ = (l.drop (i * 20)).take 20 ∧
      ((batchList l).get ⟨i, h⟩).length ≤ 20 := by
  refine ⟨numBatches_eq l, batchFlatten_zero l, ?_⟩
  intro i h
  have hval : (batchList l).get ⟨i, h⟩ = (l.drop (i * 20)).take 20 := by
    rw [List.get_eq_getElem]
    simp only [batchList, BATCH_SIZE] at h ⊢
    rw [List.getElem_map]
    have hlen : i < (pyRangeStep 0 l.length 20).length := by
      simpa using h
    have hidx : (pyRangeStep 0 l.length 20)[i] = i * 20 := by
      simp only [pyRangeStep_zero_closed]
      rw [List.getElem_map, List.getElem_range]
    simp only [batchAt, BATCH_SIZE, hidx]
  refine ⟨hval, ?_⟩
  rw [hval, List.length_take]
  omega

/-- A concrete 25-destination configuration used to instantiate the batch
partition theorem. -/
def wDest : List String := List.replicate 25 "d"

theorem wDest_two_batches : 1 < (batchList wDest).length := by
  show 1 < numBatches wDest
  rw [numBatches_eq]
  norm_num [wDest]

theorem batch_partition_witness :
    (batchList wDest).get ⟨1, wDest_two_batches⟩ = (wDest.drop (1 * 20)).take 20 :=
  ((batch_partition wDest).2.2 1 wDest_two_batches).1

/-- C6: the inter-batch delay is performed exactly `numBatches - 1` times
(natural subtraction: zero times when there is zero or one batch), i.e.
after every batch except the last and never after the final one. -/
theorem inter_batch_delay_count (l : List String) (outcome : String → TaskResult) :
    (forward_message (some ()) l outcome).interBatchSleeps = numBatches l - 1 := by
  rw [forward_message_some]

/-- C7: no per-destination failure or exception value escapes the
per-destination boundary or halts dispatch: every destination of the list
gets exactly one task in order, the successful counter counts exactly the
results that are `True`, the failed counter counts every other result, and
an exception value is never `True`, so it contributes to failed. -/
theorem fault_isolation (l : List String) (outcome : String → TaskResult) :
    (forward_message (some ()) l outcome).attempted = l ∧
    (forward_message (some ()) l outcome).successful =
      (l.map outcome).countP (fun r => isTrueResult r) ∧
    (forward_message (some ()) l outcome).failed =
      (l.map outcome).countP (fun r => !isTrueResult r) ∧
    ∀ msg, isTrueResult (TaskResult.exn msg) = false := by
  rw [forward_message_some]
  exact ⟨rfl, rfl, rfl, fun msg => rfl⟩

/-- C10: when the update carries no channel post the handler returns at
once — no forward task, no sleep, no summary; the run summary is emitted
exactly when a channel post is present. -/
theorem no_channel_post_early_return (l : List String) (outcome : String → TaskResult) :
    forward_message none l outcome =
      { attempted := [], successful := 0, failed := 0,
        interBatchSleeps := 0, summaryEmitted := false } ∧
    (forward_message (some ()) l outcome).summaryEmitted = true :=
  ⟨rfl, by rw [forward_message_some]⟩

/-- C8 (counterexample): the configured destination list is not
deduplicated; the configuration string "a,a" hands `["a", "a"]` to the
dispatcher, keeping the duplicate. -/
theorem target_channels_not_dedup :
    parseTargetChannels "a,a" = ["a", "a"] ∧
    ¬ (parseTargetChannels "a,a").Nodup := by
  exact ⟨by decide, by decide⟩

/-- C8 (amended): the destination list handed to the dispatcher is the
comma-split of the configuration with each entry stripped and empty
entries removed, in configuration order (a sublist of the stripped
split); every kept entry is non-empty, and every non-empty identifier is
kept as many times as it occurs in the configuration — duplicates are not
removed. -/
theorem target_channels_parse (env : String) (s : String) (hs : s ≠ "") :
    (parseTargetChannels env).count s
      = ((splitCommas env.data).map (fun ch => String.mk (stripChars ch))).count s ∧
    (parseTargetChannels env).Sublist
      ((splitCommas env.data).map (fun ch => String.mk (stripChars ch))) ∧
    ∀ t ∈ parseTargetChannels env, t ≠ "" := by
  refine ⟨?_, ?_, ?_⟩
  · rw [parseTargetChannels, List.count_filter]
    simp [hs]
  · exact List.filter_sublist _
  · intro t ht
    have h := List.of_mem_filter ht
    simpa using h

theorem target_channels_parse_witness :
    ("a" ≠ "") ∧
    (parseTargetChannels "a,a").count "a"
      = ((splitCommas "a,a".data).map (fun ch => String.mk (stripChars ch))).count "a" :=
  ⟨by decide, (target_channels_parse "a,a" "a" (by decide)).1⟩
